import Mathlib

/-!
Verification development for the text-corpus-tool repository.

The development shallowly embeds the three source files:
* the text normalizer `cleanText` and the record builder
  `createDocumentStructure` from the front-end script bundled with the
  server file,
* the store gateway `MongoService` (connect, insertDocument,
  deleteDocument, updateDocument, getCollectionStats), with the relevant
  MongoDB client behaviour (filters, `$regex`, `$set`/`$inc` update
  operators and their path-conflict rule) modelled explicitly.

Strings are modelled as `List Char` of Unicode code points (JavaScript
strings are UTF-16 code-unit sequences; the two agree on all inputs used
by the theorems below, which stay inside the BMP).
-/

namespace TextCorpus

set_option maxRecDepth 100000

/-- The JavaScript `\s` character class (ECMAScript WhiteSpace and
LineTerminator productions), used by the regexes of `cleanText` and by
`String.prototype.trim`. -/
def isJsWs (c : Char) : Bool :=
  c = ' ' || c = '\t' || c = '\n' || c = '\r' || c = '\x0b' || c = '\x0c' ||
  c = ' ' || c = ' ' || (' ' ≤ c && c ≤ ' ') ||
  c = ' ' || c = ' ' || c = ' ' || c = ' ' ||
  c = '　' || c = '﻿'

/-- ECMAScript LineTerminator characters: the positions around which the
multiline anchors `^` and `$` match. -/
def isLineTerm (c : Char) : Bool :=
  c = '\n' || c = '\r' || c = ' ' || c = ' '

/-- The class `[^\S\n]` from step 5 of `cleanText`: whitespace other than
a newline. -/
def isHorizWs (c : Char) : Bool :=
  isJsWs c && !(c = '\n')

/-- The class `[ \t]` from step 7 of `cleanText`. -/
def isSpTab (c : Char) : Bool :=
  c = ' ' || c = '\t'

/-- The JavaScript `\w` character class. -/
def isWordChar (c : Char) : Bool :=
  c.isAlphanum || c = '_'

/-- The punctuation class `[.,!?;:]` from step 9 of `cleanText`. -/
def isPunctCh (c : Char) : Bool :=
  c = '.' || c = ',' || c = '!' || c = '?' || c = ';' || c = ':'

/-- Worker for `gsub`. The fuel starts as the input length; every
iteration either copies one character or consumes a nonempty match, so
the fuel never runs out before the input does. -/
def gsubAux (m : List Char → Option (List Char × List Char)) :
    Nat → List Char → List Char
  | 0, l => l
  | _ + 1, [] => []
  | fuel + 1, c :: cs =>
    match m (c :: cs) with
    | some (rep, rest) => rep ++ gsubAux m fuel rest
    | none => c :: gsubAux m fuel cs

/-- JavaScript `String.prototype.replace` with a global regex: scan left
to right; at each position either the matcher consumes a (nonempty) match
and emits its replacement, or the character is copied.  Matching is
against the original string, as in JavaScript. -/
def gsub (m : List Char → Option (List Char × List Char)) (l : List Char) :
    List Char :=
  gsubAux m l.length l

/-- Worker for `gsubLine`: like `gsubAux` but threads an `at line start`
flag so a matcher can implement the multiline `^` anchor. -/
def gsubLineAux (m : Bool → List Char → Option (Bool × List Char)) :
    Nat → Bool → List Char → List Char
  | 0, _, l => l
  | _ + 1, _, [] => []
  | fuel + 1, atStart, c :: cs =>
    match m atStart (c :: cs) with
    | some (st2, rest) => gsubLineAux m fuel st2 rest
    | none => c :: gsubLineAux m fuel (isLineTerm c) cs

/-- Global replace for a `^`-anchored multiline regex with empty
replacement.  The matcher receives the line-start flag and returns the
flag for the continuation position together with the rest of the input. -/
def gsubLine (m : Bool → List Char → Option (Bool × List Char))
    (l : List Char) : List Char :=
  gsubLineAux m l.length true l

/-- Model of JavaScript `String.prototype.normalize('NFC')` (step 1 of
`cleanText`).  Unicode canonical composition is the identity on text that
is already composed; every concrete input evaluated by a theorem in this
file is ASCII, where NFC is the identity, and no theorem below depends on
the behaviour of this step elsewhere. -/
def nfcNFC (l : List Char) : List Char := l

/-- Step 2 of `cleanText`, `replace(/['']/g, "'")`.  In the source file
the character class literally holds two ASCII apostrophes, so the
substitution maps an apostrophe to an apostrophe. -/
def mApos : List Char → Option (List Char × List Char)
  | '\'' :: rest => some (['\''], rest)
  | _ => none

/-- Step 2 of `cleanText`, `replace(/[""]/g, '"')`.  In the source file
the character class literally holds two ASCII double quotes. -/
def mQuote : List Char → Option (List Char × List Char)
  | '"' :: rest => some (['"'], rest)
  | _ => none

/-- Step 2 of `cleanText`: the ellipsis regex in the source file is the
three-character mojibake sequence U+00E2 U+20AC U+00A6 (the UTF-8 bytes
of an ellipsis read as cp1252), replaced by `...`. -/
def mMojiEllipsis : List Char → Option (List Char × List Char)
  | 'â' :: '€' :: '¦' :: rest => some (['.', '.', '.'], rest)
  | _ => none

/-- Step 2 of `cleanText`: the em-dash regex in the source file is the
mojibake sequence U+00E2 U+20AC U+201D, replaced by `--`. -/
def mMojiEmDash : List Char → Option (List Char × List Char)
  | 'â' :: '€' :: '”' :: rest => some (['-', '-'], rest)
  | _ => none

/-- Step 2 of `cleanText`: the en-dash regex in the source file is the
mojibake sequence U+00E2 U+20AC U+201C, replaced by `-`. -/
def mMojiEnDash : List Char → Option (List Char × List Char)
  | 'â' :: '€' :: '“' :: rest => some (['-'], rest)
  | _ => none

/-- Split a list just before its last ECMAScript line terminator:
`lastLineTermSplit l = some (a, b)` with `l = a ++ b` and `b` starting
with the last line terminator of `l`; `none` if `l` has none. -/
def lastLineTermSplit : List Char → Option (List Char × List Char)
  | [] => none
  | c :: cs =>
    match lastLineTermSplit cs with
    | some (a, b) => some (c :: a, b)
    | none => if isLineTerm c then some ([], c :: cs) else none

/-- Step 3 of `cleanText`, `replace(/^\s*\d+\s*$/gm, '')`: a matcher for
the line-aware scanner.  At a line start the regex backtracking resolves
to: a maximal whitespace run, a nonempty maximal digit run, then
whitespace up to the end of the string or up to (not including) the last
line terminator of the following whitespace run. -/
def mPageNum (atStart : Bool) (l : List Char) :
    Option (Bool × List Char) :=
  if !atStart then none else
  let w1 := l.takeWhile isJsWs
  let r1 := l.dropWhile isJsWs
  let ds := r1.takeWhile Char.isDigit
  let r2 := r1.dropWhile Char.isDigit
  if ds.isEmpty then none else
  let w2 := r2.takeWhile isJsWs
  let r3 := r2.dropWhile isJsWs
  if r3.isEmpty then some (false, [])
  else
    match lastLineTermSplit w2 with
    | none => none
    | some (pre, suf) =>
      some ((((w1 ++ ds ++ pre).getLast?).map isLineTerm).getD false,
        suf ++ r3)

/-- Step 4 of `cleanText`, `replace(/(\w+)-\s*\n\s*(\w+)/g, '$1$2')`:
a word run, a hyphen, whitespace containing at least one `\n`, then a
word run; the hyphen and the whitespace are dropped. -/
def mHyphenWrap (l : List Char) : Option (List Char × List Char) :=
  let w1 := l.takeWhile isWordChar
  let r1 := l.dropWhile isWordChar
  if w1.isEmpty then none else
  match r1 with
  | '-' :: r2 =>
    let ws := r2.takeWhile isJsWs
    let r3 := r2.dropWhile isJsWs
    if ws.contains '\n' then
      let w2 := r3.takeWhile isWordChar
      let r4 := r3.dropWhile isWordChar
      if w2.isEmpty then none else some (w1 ++ w2, r4)
    else none
  | _ => none

/-- Step 5 of `cleanText`, `replace(/[^\S\n]+/g, ' ')`: a run of
non-newline whitespace collapses to one space. -/
def mHorizRun : List Char → Option (List Char × List Char)
  | c :: cs =>
    if isHorizWs c then some ([' '], cs.dropWhile isHorizWs) else none
  | [] => none

/-- Step 6 of `cleanText`, `replace(/\n{3,}/g, '\n\n')`: three or more
newlines collapse to two. -/
def mNewlines3 : List Char → Option (List Char × List Char)
  | '\n' :: '\n' :: '\n' :: rest =>
    some (['\n', '\n'], rest.dropWhile (fun c => c == '\n'))
  | _ => none

/-- Remove leading and trailing `[ \t]` runs of one line segment. -/
def trimSpTab (seg : List Char) : List Char :=
  ((seg.dropWhile isSpTab).reverse.dropWhile isSpTab).reverse

/-- Worker for step 7: accumulate the current line (reversed) and trim it
at each line terminator and at the end. -/
def step7Aux (cur : List Char) : List Char → List Char
  | [] => trimSpTab cur.reverse
  | c :: cs =>
    if isLineTerm c then trimSpTab cur.reverse ++ c :: step7Aux [] cs
    else step7Aux (c :: cur) cs

/-- Step 7 of `cleanText`, `replace(/^[ \t]+|[ \t]+$/gm, '')`: every line
loses its leading and trailing space/tab runs. -/
def step7 (l : List Char) : List Char :=
  step7Aux [] l

/-- Step 8 of `cleanText`, `replace(/\[\d+\]/g, '')`: bracketed numeric
citation markers are removed. -/
def mCitation : List Char → Option (List Char × List Char)
  | '[' :: r =>
    let ds := r.takeWhile Char.isDigit
    let r2 := r.dropWhile Char.isDigit
    if ds.isEmpty then none else
    match r2 with
    | ']' :: r3 => some ([], r3)
    | _ => none
  | _ => none

/-- Step 9 of `cleanText`, `replace(/\s+([.,!?;:])/g, '$1')`: whitespace
before punctuation is removed. -/
def mWsBeforePunct (l : List Char) : Option (List Char × List Char) :=
  let ws := l.takeWhile isJsWs
  let r := l.dropWhile isJsWs
  if ws.isEmpty then none else
  match r with
  | p :: r2 => if isPunctCh p then some ([p], r2) else none
  | [] => none

/-- Step 9 of `cleanText`, `replace(/([.,!?;:])\s*([.,!?;:])/g, '$1 $2')`:
two punctuation marks separated by optional whitespace get exactly one
space. -/
def mPunctPair : List Char → Option (List Char × List Char)
  | p1 :: r =>
    if isPunctCh p1 then
      let r2 := r.dropWhile isJsWs
      match r2 with
      | p2 :: r3 => if isPunctCh p2 then some ([p1, ' ', p2], r3) else none
      | [] => none
    else none
  | [] => none

/-- Step 10 of `cleanText`, `replace(/https?:\/\/[^\s]+/g, '')`: an
`http://` or `https://` scheme followed by a nonempty run of
non-whitespace characters is removed. -/
def mUrl : List Char → Option (List Char × List Char)
  | 'h' :: 't' :: 't' :: 'p' :: r =>
    let afterScheme : Option (List Char) :=
      match r with
      | 's' :: ':' :: '/' :: '/' :: r2 => some r2
      | ':' :: '/' :: '/' :: r2 => some r2
      | _ => none
    match afterScheme with
    | some r2 =>
      let tok := r2.takeWhile (fun c => !isJsWs c)
      let rest := r2.dropWhile (fun c => !isJsWs c)
      if tok.isEmpty then none else some ([], rest)
    | none => none
  | _ => none

/-- The class `[\w.-]` of the email regex in step 11 of `cleanText`. -/
def isEmailCh (c : Char) : Bool :=
  isWordChar c || c = '.' || c = '-'

/-- For the domain run of the email regex: index `i` is a usable dot if
it is at least 1 (the second `[\w.-]+` is nonempty), holds a `.`, and is
followed by a word character (the final `\w+` is nonempty). -/
def validDot (dom : List Char) (i : Nat) : Bool :=
  1 ≤ i && dom.get? i == some '.' &&
    (((dom.get? (i + 1)).map isWordChar).getD false)

/-- Step 11 of `cleanText`, `replace(/[\w.-]+@[\w.-]+\.\w+/g, '')`: local
part, `@`, then a `[\w.-]` run split at its last usable dot followed by a
maximal word run; regex backtracking chooses the rightmost usable dot. -/
def mEmail (l : List Char) : Option (List Char × List Char) :=
  let loc := l.takeWhile isEmailCh
  let r1 := l.dropWhile isEmailCh
  if loc.isEmpty then none else
  match r1 with
  | '@' :: r2 =>
    let dom := r2.takeWhile isEmailCh
    let r3 := r2.dropWhile isEmailCh
    match ((List.range dom.length).filter (validDot dom)).getLast? with
    | some i =>
      let w := (dom.drop (i + 1)).takeWhile isWordChar
      some ([], dom.drop (i + 1 + w.length) ++ r3)
    | none => none
  | _ => none

/-- JavaScript `String.prototype.trim` (step 12 of `cleanText`). -/
def jsTrim (l : List Char) : List Char :=
  ((l.dropWhile isJsWs).reverse.dropWhile isJsWs).reverse

/-- The twelve-step substitution pipeline of `cleanText`, in source
order. -/
def cleanPipeline (l : List Char) : List Char :=
  let c1 := nfcNFC l
  let c2 := gsub mApos c1
  let c3 := gsub mQuote c2
  let c4 := gsub mMojiEllipsis c3
  let c5 := gsub mMojiEmDash c4
  let c6 := gsub mMojiEnDash c5
  let c7 := gsubLine mPageNum c6
  let c8 := gsub mHyphenWrap c7
  let c9 := gsub mHorizRun c8
  let c10 := gsub mNewlines3 c9
  let c11 := step7 c10
  let c12 := gsub mCitation c11
  let c13 := gsub mWsBeforePunct c12
  let c14 := gsub mPunctPair c13
  let c15 := gsub mUrl c14
  let c16 := gsub mEmail c15
  jsTrim c16

/-- The normalizer `cleanText` of the front-end script, on string input:
the empty string is falsy in JavaScript and returns `''` at the guard;
otherwise the substitution pipeline runs. -/
def cleanText (s : String) : String :=
  if s = "" then "" else String.mk (cleanPipeline s.data)

/-- A JavaScript value, as far as the embedded code needs one: the
`cleanText` guard distinguishes strings from everything else, and
`updateDocument` builds plain objects. -/
inductive JsVal where
  | str (s : String)
  | num (n : Int)
  | boolV (b : Bool)
  | nullV
  | undef
  | obj (fields : List (String × JsVal))

/-- `cleanText` on an arbitrary JavaScript value:
`if (!text || typeof text !== 'string') return ''`. -/
def cleanTextVal (v : JsVal) : String :=
  match v with
  | .str s => cleanText s
  | _ => ""

/-- The `attribution` block of a document record. -/
structure Attribution where
  author : String
  title : String
  publisher : Option String
  isbn : Option String
  publication_date : Option String
  source_url : Option String
  content_type : String
deriving DecidableEq

/-- The `content_metadata` block of a document record. -/
structure ContentMetadata where
  language : String
  topic_category : List String
  genre : Option String
  chapter_section : Option String
  page_numbers : Option String
deriving DecidableEq

/-- The `opt_out_status` sub-block of `copyright_compliance`. -/
structure OptOutStatus where
  has_opted_out : Bool
  opt_out_mechanism : String
  last_checked : String
deriving DecidableEq

/-- The `copyright_compliance` block of a document record. -/
structure CopyrightCompliance where
  license_status : String
  fair_use_assessment : String
  opt_out_status : OptOutStatus
  compliance_date : String
deriving DecidableEq

/-- One entry of the `data_lineage` list. -/
structure LineageStep where
  step : String
  timestamp : String
  tool_used : String
deriving DecidableEq

/-- The `provenance` block of a document record. -/
structure Provenance where
  acquisition_date : String
  acquisition_method : String
  original_publication_date : String
  data_lineage : List LineageStep
deriving DecidableEq

/-- The `training_metadata` block of a document record. -/
structure TrainingMetadata where
  token_count : Nat
  character_count : Nat
  processing_status : String
  weighting : Int
deriving DecidableEq

/-- The `ai_act_compliance` block of a document record. -/
structure AiActCompliance where
  summary_included : Bool
  transparency_level : String
  documented_for_authorities : Bool
deriving DecidableEq

/-- The document record assembled by `createDocumentStructure` and stored
by `MongoService`. -/
structure Doc where
  document_id : String
  content_text : String
  attribution : Attribution
  content_metadata : ContentMetadata
  copyright_compliance : CopyrightCompliance
  provenance : Provenance
  training_metadata : TrainingMetadata
  ai_act_compliance : AiActCompliance
  created_at : String
  updated_at : String
  version : Int
deriving DecidableEq

/-- The form fields read by `createDocumentStructure` from the DOM, as
raw element values; `weight` stands for the already-parsed
`parseInt(...)` result. -/
structure FormFields where
  title : String
  author : String
  contentType : String
  language : String
  publisher : String
  isbn : String
  genre : String
  chapter : String
  sourceUrl : String
  weight : Int
  contentText : String
deriving DecidableEq

/-- JavaScript `String.prototype.trim` on `String`. -/
def jsTrimStr (s : String) : String :=
  String.mk (jsTrim s.data)

/-- The JavaScript idiom `x || null` on a trimmed field: the empty string
is falsy and becomes an absent value. -/
def orNull (s : String) : Option String :=
  if s = "" then none else some s

/-- `Math.ceil(n / 4)` on a nonnegative count. -/
def ceilDiv4 (n : Nat) : Nat :=
  (n + 3) / 4

/-- The record builder `createDocumentStructure` of the front-end script
bundled with the server file (the variant that cleans the text).  The
generated `document_id` and the current ISO timestamp are passed in as
parameters; everything else follows the source literally. -/
def createDocumentStructure (f : FormFields) (documentId currentDate : String) :
    Doc :=
  let title := jsTrimStr f.title
  let author := jsTrimStr f.author
  let publisher := jsTrimStr f.publisher
  let isbn := jsTrimStr f.isbn
  let genre := jsTrimStr f.genre
  let chapter := jsTrimStr f.chapter
  let sourceUrl := jsTrimStr f.sourceUrl
  let rawContentText := jsTrimStr f.contentText
  let contentText := cleanText rawContentText
  { document_id := documentId
    content_text := contentText
    attribution :=
      { author := author
        title := title
        publisher := orNull publisher
        isbn := orNull isbn
        publication_date := none
        source_url := orNull sourceUrl
        content_type := f.contentType }
    content_metadata :=
      { language := f.language
        topic_category := ["other"]
        genre := orNull genre
        chapter_section := orNull chapter
        page_numbers := none }
    copyright_compliance :=
      { license_status := "user_provided"
        fair_use_assessment := "not_assessed"
        opt_out_status :=
          { has_opted_out := false
            opt_out_mechanism := "not_applicable"
            last_checked := currentDate }
        compliance_date := currentDate }
    provenance :=
      { acquisition_date := currentDate
        acquisition_method := "manual_input"
        original_publication_date := currentDate
        data_lineage :=
          [{ step := "Manual text input via corpus tool (auto-cleaned)"
             timestamp := currentDate
             tool_used := "text-corpus-tool v1.0" }] }
    training_metadata :=
      { token_count := ceilDiv4 contentText.length
        character_count := contentText.length
        processing_status := "ready_for_training"
        weighting := f.weight }
    ai_act_compliance :=
      { summary_included := true
        transparency_level := "full_disclosure"
        documented_for_authorities := true }
    created_at := currentDate
    updated_at := currentDate
    version := 1 }

/-- The record builder `createDocumentStructure` of `src/public/script.js`
(the copy served from the static `public` directory).  It differs from
the auto-cleaning variant in exactly two points: there is no `cleanText`
call — `content_text` and both counts come from the raw trimmed textarea
value — and the `data_lineage` step string lacks the `(auto-cleaned)`
suffix. -/
def createDocumentStructureNoClean (f : FormFields)
    (documentId currentDate : String) : Doc :=
  let title := jsTrimStr f.title
  let author := jsTrimStr f.author
  let publisher := jsTrimStr f.publisher
  let isbn := jsTrimStr f.isbn
  let genre := jsTrimStr f.genre
  let chapter := jsTrimStr f.chapter
  let sourceUrl := jsTrimStr f.sourceUrl
  let contentText := jsTrimStr f.contentText
  { document_id := documentId
    content_text := contentText
    attribution :=
      { author := author
        title := title
        publisher := orNull publisher
        isbn := orNull isbn
        publication_date := none
        source_url := orNull sourceUrl
        content_type := f.contentType }
    content_metadata :=
      { language := f.language
        topic_category := ["other"]
        genre := orNull genre
        chapter_section := orNull chapter
        page_numbers := none }
    copyright_compliance :=
      { license_status := "user_provided"
        fair_use_assessment := "not_assessed"
        opt_out_status :=
          { has_opted_out := false
            opt_out_mechanism := "not_applicable"
            last_checked := currentDate }
        compliance_date := currentDate }
    provenance :=
      { acquisition_date := currentDate
        acquisition_method := "manual_input"
        original_publication_date := currentDate
        data_lineage :=
          [{ step := "Manual text input via corpus tool"
             timestamp := currentDate
             tool_used := "text-corpus-tool v1.0" }] }
    training_metadata :=
      { token_count := ceilDiv4 contentText.length
        character_count := contentText.length
        processing_status := "ready_for_training"
        weighting := f.weight }
    ai_act_compliance :=
      { summary_included := true
        transparency_level := "full_disclosure"
        documented_for_authorities := true }
    created_at := currentDate
    updated_at := currentDate
    version := 1 }

/-- The character class `[.*+?^${}()|[\]\\]` of the escaping call in
`MongoService.insertDocument`. -/
def regexSpecials : List Char :=
  ['.', '*', '+', '?', '^', '$', '\x7b', '\x7d', '(', ')', '|', '[', ']',
   '\\']

/-- `replace(/[.*+?^${}()|[\]\\]/g, '\\$&')`: every regex-special
character gets a backslash in front of it. -/
def escapeRegexChars : List Char → List Char
  | [] => []
  | c :: rest =>
    if c ∈ regexSpecials then '\\' :: c :: escapeRegexChars rest
    else c :: escapeRegexChars rest

/-- One element of a compiled regular expression, for the fragment of
regex syntax that `insertDocument` can produce: a literal character or
the `.` wildcard. -/
inductive RElem where
  | lit (c : Char)
  | wild
deriving DecidableEq

/-- Metacharacters (other than `.` and `\`) that this model does not
support unescaped; all of them are in `regexSpecials`, so escaped input
never produces them. -/
def regexHardMetas : List Char :=
  ['*', '+', '?', '^', '$', '\x7b', '\x7d', '(', ')', '|', '[', ']']

/-- Compile the body of a regex pattern: `\c` for a special `c` is the
literal `c`, `.` is the wildcard, a plain non-metacharacter is itself;
anything else is outside the supported fragment. -/
def parseRegexChars : List Char → Option (List RElem)
  | [] => some []
  | c :: rest =>
    if c = '\\' then
      match rest with
      | [] => none
      | c2 :: rest2 =>
        if c2 ∈ regexSpecials then
          (parseRegexChars rest2).map (fun es => RElem.lit c2 :: es)
        else none
    else if c ∈ regexHardMetas then none
    else if c = '.' then
      (parseRegexChars rest).map (fun es => RElem.wild :: es)
    else (parseRegexChars rest).map (fun es => RElem.lit c :: es)

/-- Match a compiled regex element list at the start of the input. -/
def regexMatchesAt : List RElem → List Char → Bool
  | [], _ => true
  | _ :: _, [] => false
  | .lit c :: es, x :: xs => c = x && regexMatchesAt es xs
  | .wild :: es, x :: xs => !isLineTerm x && regexMatchesAt es xs

/-- Match a compiled regex element list anywhere in the input. -/
def regexSearch (es : List RElem) : List Char → Bool
  | [] => regexMatchesAt es []
  | x :: xs => regexMatchesAt es (x :: xs) || regexSearch es xs

/-- MongoDB `$regex` on a field value: a pattern starting with `^` is
anchored at the beginning, otherwise it may match anywhere.  A pattern
outside the supported fragment matches nothing (never produced by the
code under verification). -/
def mongoRegexTest (pat s : List Char) : Bool :=
  match pat with
  | '^' :: body =>
    match parseRegexChars body with
    | some es => regexMatchesAt es s
    | none => false
  | _ =>
    match parseRegexChars pat with
    | some es => regexSearch es s
    | none => false

/-- The `contentSignature` filter of `MongoService.insertDocument`: same
`attribution.title`, same `attribution.author`, and `content_text`
matching the regex built from the first 100 characters of the new
document's text with special characters escaped. -/
def contentSigMatch (doc d : Doc) : Bool :=
  decide (d.attribution.title = doc.attribution.title) &&
  decide (d.attribution.author = doc.attribution.author) &&
  mongoRegexTest ('^' :: escapeRegexChars (doc.content_text.data.take 100))
    d.content_text.data

/-- The two failures `insertDocument` can raise: the spec's
`DuplicateIdError` (`'Document with this ID already exists in corpus'`)
and `DuplicateContentError` (`'Similar content already exists in
corpus'`). -/
inductive InsertError where
  | duplicateId
  | duplicateContent
deriving DecidableEq

/-- `MongoService.insertDocument`: the collection is modelled as the list
of stored documents in insertion order.  First the `document_id` lookup,
then the content-signature lookup; only if both find nothing is the
document appended. -/
def insertDocument (doc : Doc) (coll : List Doc) :
    Except InsertError (List Doc) :=
  if coll.any (fun d => decide (d.document_id = doc.document_id)) then
    .error .duplicateId
  else if coll.any (contentSigMatch doc) then
    .error .duplicateContent
  else .ok (coll ++ [doc])

/-- `MongoService.deleteDocument`, i.e. `deleteOne({document_id})`: the
first document with the given id is removed; the second component is the
`deletedCount` of the result.  A miss is not an error. -/
def deleteDocument (documentId : String) : List Doc → List Doc × Nat
  | [] => ([], 0)
  | d :: rest =>
    if d.document_id = documentId then (rest, 1)
    else
      let r := deleteDocument documentId rest
      (d :: r.1, r.2)

/-- The aggregate returned by `MongoService.getCollectionStats`. -/
structure CollStats where
  totalDocuments : Nat
  totalCharacters : Nat
  totalTokens : Nat
  averageWeight : Rat
  contentTypes : List String
deriving DecidableEq

/-- MongoDB `$addToSet` over a scan of the collection: each value is
added the first time it is seen. -/
def addToSet (l : List String) : List String :=
  l.foldl (fun acc x => if x ∈ acc then acc else acc ++ [x]) []

/-- `MongoService.getCollectionStats`: the `$group` stage with `_id:
null` produces one result document when the collection is nonempty
(`$sum` of 1 and of the two counts, `$avg` of the weights — modelled
exactly, as a rational — and `$addToSet` of the content types) and an
empty result array when it is empty, in which case the code returns the
all-zero object. -/
def getCollectionStats (coll : List Doc) : CollStats :=
  match coll with
  | [] =>
    { totalDocuments := 0
      totalCharacters := 0
      totalTokens := 0
      averageWeight := 0
      contentTypes := [] }
  | _ =>
    { totalDocuments := coll.length
      totalCharacters :=
        (coll.map (fun d => d.training_metadata.character_count)).sum
      totalTokens :=
        (coll.map (fun d => d.training_metadata.token_count)).sum
      averageWeight :=
        ((coll.map (fun d => (d.training_metadata.weighting : Rat))).sum) /
          (coll.length : Rat)
      contentTypes :=
        addToSet (coll.map (fun d => d.attribution.content_type)) }

/-- A JavaScript object with string keys, in property-insertion order. -/
abbrev JsObj := List (String × JsVal)

/-- Property read `o[k]`. -/
def getKey : JsObj → String → Option JsVal
  | [], _ => none
  | (k2, v) :: rest, k => if k2 = k then some v else getKey rest k

/-- Property write `o[k] = v`: JavaScript keeps the position of an
existing key and appends a new one. -/
def setKey : JsObj → String → JsVal → JsObj
  | [], k, v => [(k, v)]
  | (k2, v2) :: rest, k, v =>
    if k2 = k then (k, v) :: rest else (k2, v2) :: setKey rest k v

/-- The update document passed to `updateOne`: a `$set` part and a
`$inc` part, each a list of top-level field paths with their values. -/
structure UpdateCmd where
  set : JsObj
  inc : List (String × Int)

/-- MongoDB rejects an update whose operators address the same field
path more than once (`ConflictingUpdateOperators`, error 40): here, a
path occurring both under `$set` and under `$inc`. -/
def hasConflict (cmd : UpdateCmd) : Bool :=
  cmd.set.any (fun kv => cmd.inc.any (fun ki => decide (kv.1 = ki.1)))

/-- Failures of the modelled `updateOne`. -/
inductive MongoUpdateError where
  | conflictingUpdateOperators
  | incOnNonNumeric
deriving DecidableEq

/-- Apply the `$set` part to a stored document. -/
def applySets (sets : List (String × JsVal)) (d : JsObj) : JsObj :=
  sets.foldl (fun acc kv => setKey acc kv.1 kv.2) d

/-- Apply the `$inc` part to a stored document: a missing field is
created with the increment, a numeric field is incremented, anything
else is a server error. -/
def applyIncs : List (String × Int) → JsObj → Except MongoUpdateError JsObj
  | [], d => .ok d
  | (k, n) :: rest, d =>
    match getKey d k with
    | some (.num m) => applyIncs rest (setKey d k (.num (m + n)))
    | none => applyIncs rest (setKey d k (.num n))
    | some _ => .error .incOnNonNumeric

/-- Apply an already-validated update to the first document matching the
`document_id` filter; matching nothing is not an error. -/
def updateFirstMatch (documentId : String) (cmd : UpdateCmd) :
    List JsObj → Except MongoUpdateError (List JsObj)
  | [] => .ok []
  | d :: rest =>
    match getKey d ("document_id") with
    | some (.str s) =>
      if s = documentId then
        match applyIncs cmd.inc (applySets cmd.set d) with
        | .ok d2 => .ok (d2 :: rest)
        | .error e => .error e
      else
        match updateFirstMatch documentId cmd rest with
        | .ok rest2 => .ok (d :: rest2)
        | .error e => .error e
    | _ =>
      match updateFirstMatch documentId cmd rest with
      | .ok rest2 => .ok (d :: rest2)
      | .error e => .error e

/-- MongoDB `updateOne({document_id}, cmd)`: the update document is
validated first — conflicting operator paths are rejected before any
document is touched — and then applied to the first match. -/
def mongoUpdateOne (documentId : String) (cmd : UpdateCmd)
    (coll : List JsObj) : Except MongoUpdateError (List JsObj) :=
  if hasConflict cmd then .error .conflictingUpdateOperators
  else updateFirstMatch documentId cmd coll

/-- The mutation `MongoService.updateDocument` performs on the caller's
`updateData` object before calling `updateOne`:
`updateData.updated_at = new Date().toISOString()` and
`updateData.version = { $inc: { version: 1 } }`. -/
def updateDocumentPatch (nowIso : String) (updateData : JsObj) : JsObj :=
  setKey (setKey updateData ("updated_at") (.str nowIso)) ("version")
    (.obj [("$inc", .obj [("version", .num 1)])])

/-- `MongoService.updateDocument(documentId, updateData)`: the mutated
patch goes under `$set`, and `version` is additionally incremented by 1
under `$inc`. -/
def updateDocument (documentId nowIso : String) (updateData : JsObj)
    (coll : List JsObj) : Except MongoUpdateError (List JsObj) :=
  mongoUpdateOne documentId
    { set := updateDocumentPatch nowIso updateData
      inc := [("version", 1)] }
    coll

/-- The connection-relevant fields of a `MongoService` instance:
`this.client`, `this.db`, and a count of underlying client connections
ever started (each `new MongoClient` + `client.connect()`). -/
structure ConnState where
  client : Option Unit
  db : Option Nat
  clientsCreated : Nat
deriving DecidableEq

/-- Where one `connect()` call stands: not yet run, suspended at
`await this.client.connect()`, or returned with a value. -/
inductive CallPhase where
  | start
  | awaitingConnect
  | done (ret : Option Nat)
deriving DecidableEq

/-- One scheduler step of a single `connect()` call.  The synchronous
part runs atomically up to the first `await`: a caller that finds
`this.client` already set returns `this.db` immediately (whatever it
holds); otherwise it assigns `this.client` synchronously and suspends at
the `await`.  When the await resumes, `this.db` is assigned (handle `1`
models `client.db('corpora')`) and returned. -/
def connectStep (s : ConnState) (p : CallPhase) : ConnState × CallPhase :=
  match p with
  | .start =>
    match s.client with
    | some _ => (s, .done s.db)
    | none =>
      ({ s with client := some (), clientsCreated := s.clientsCreated + 1 },
        .awaitingConnect)
  | .awaitingConnect => ({ s with db := some 1 }, .done (some 1))
  | .done r => (s, .done r)

/-- Two concurrent `connect()` callers sharing one `MongoService`. -/
structure TwoCallers where
  st : ConnState
  a : CallPhase
  b : CallPhase
deriving DecidableEq

/-- Run one step of the caller selected by the scheduler (`false` = A,
`true` = B). -/
def schedStep (t : TwoCallers) (pick : Bool) : TwoCallers :=
  match pick with
  | false =>
    let r := connectStep t.st t.a
    { st := r.1, a := r.2, b := t.b }
  | true =>
    let r := connectStep t.st t.b
    { st := r.1, a := t.a, b := r.2 }

/-- Run a whole schedule. -/
def runSched (sched : List Bool) (t : TwoCallers) : TwoCallers :=
  sched.foldl schedStep t

/-- A fresh `MongoService` with two callers about to call `connect()`. -/
def initTC : TwoCallers :=
  { st := { client := none, db := none, clientsCreated := 0 }
    a := .start
    b := .start }

/-- Fixture: form fields for a small document. -/
def sampleFields : FormFields :=
  { title := "Walden"
    author := "Thoreau"
    contentType := "book"
    language := "en-US"
    publisher := ""
    isbn := ""
    genre := ""
    chapter := ""
    sourceUrl := ""
    weight := 1
    contentText := "I went to the woods." }

/-- Fixture: a stored document built from `sampleFields`. -/
def sampleDoc : Doc :=
  createDocumentStructure sampleFields ("text_content_1_aaaaaaaaa")
    ("2026-01-01T00:00:00.000Z")

/-- Fixture: the same text and attribution under a different id. -/
def sampleDocOtherId : Doc :=
  createDocumentStructure sampleFields ("text_content_2_bbbbbbbbb")
    ("2026-01-02T00:00:00.000Z")

/-- Fixture: form fields with 400 characters of cleaned text. -/
def sampleFields400 : FormFields :=
  { sampleFields with contentText := String.mk (List.replicate 400 'a') }

/-- Fixture: form fields whose text shrinks under normalization (the URL
is removed by `cleanText`), so raw and cleaned lengths differ. -/
def urlFields : FormFields :=
  { sampleFields with contentText := "Visit https://example.com now" }

/-- Invariant of the connection state: as long as `this.client` is unset
no connection was ever started, and overall at most one connection is
ever started. -/
def connInv (s : ConnState) : Prop :=
  (s.client = none → s.clientsCreated = 0) ∧ s.clientsCreated ≤ 1

theorem parseRegexChars_escape (l : List Char) :
    parseRegexChars (escapeRegexChars l) = some (l.map RElem.lit) := by
  induction l with
  | nil => rfl
  | cons c rest ih =>
    by_cases hc : c ∈ regexSpecials
    · simp [escapeRegexChars, hc, parseRegexChars, ih]
    · have h1 : c ≠ '\\' := by
        intro h
        exact hc (by simp [regexSpecials, h])
      have h2 : c ∉ regexHardMetas := by
        intro hm
        apply hc
        simp [regexHardMetas] at hm
        simp [regexSpecials]
        tauto
      have h3 : c ≠ '.' := by
        intro h
        exact hc (by simp [regexSpecials, h])
      rw [escapeRegexChars, if_neg hc, parseRegexChars.eq_def]
      simp [h1, h2, h3, ih]

theorem regexMatchesAt_lits (p : List Char) :
    ∀ s : List Char,
      regexMatchesAt (p.map RElem.lit) s = decide (p <+: s) := by
  induction p with
  | nil => intro s; simp [regexMatchesAt]
  | cons c p ih =>
    intro s
    cases s with
    | nil => simp [regexMatchesAt]
    | cons x xs => simp [regexMatchesAt, ih, List.cons_prefix_cons]

theorem contentSigMatch_eq (doc d : Doc) :
    contentSigMatch doc d =
      (decide (d.attribution.title = doc.attribution.title) &&
       decide (d.attribution.author = doc.attribution.author) &&
       decide (doc.content_text.data.take 100 <+: d.content_text.data)) := by
  unfold contentSigMatch
  have h : mongoRegexTest
      ('^' :: escapeRegexChars (doc.content_text.data.take 100))
      d.content_text.data =
      decide (doc.content_text.data.take 100 <+: d.content_text.data) := by
    rw [show mongoRegexTest
          ('^' :: escapeRegexChars (doc.content_text.data.take 100))
          d.content_text.data =
        (match parseRegexChars
            (escapeRegexChars (doc.content_text.data.take 100)) with
         | some es => regexMatchesAt es d.content_text.data
         | none => false) from rfl]
    rw [parseRegexChars_escape]
    exact regexMatchesAt_lits _ _
  rw [h]

theorem any_contentSig_iff (doc : Doc) (coll : List Doc) :
    coll.any (contentSigMatch doc) = true ↔
      ∃ d ∈ coll, d.attribution.title = doc.attribution.title ∧
        d.attribution.author = doc.attribution.author ∧
        doc.content_text.data.take 100 <+: d.content_text.data := by
  simp [List.any_eq_true, contentSigMatch_eq, and_assoc]

theorem any_docId_iff (doc : Doc) (coll : List Doc) :
    (coll.any fun d => decide (d.document_id = doc.document_id)) = true ↔
      ∃ d ∈ coll, d.document_id = doc.document_id := by
  simp [List.any_eq_true]

theorem insertDocument_dup_id (doc : Doc) (coll : List Doc)
    (h : ∃ d ∈ coll, d.document_id = doc.document_id) :
    insertDocument doc coll = .error .duplicateId := by
  have hany := (any_docId_iff doc coll).mpr h
  simp [insertDocument, hany]

theorem insertDocument_dup_content (doc : Doc) (coll : List Doc)
    (hid : ¬ ∃ d ∈ coll, d.document_id = doc.document_id)
    (hct : ∃ d ∈ coll, d.attribution.title = doc.attribution.title ∧
      d.attribution.author = doc.attribution.author ∧
      doc.content_text.data.take 100 <+: d.content_text.data) :
    insertDocument doc coll = .error .duplicateContent := by
  have h1 : (coll.any fun d => decide (d.document_id = doc.document_id)) = false := by
    rw [← Bool.not_eq_true, any_docId_iff]
    exact hid
  have h2 := (any_contentSig_iff doc coll).mpr hct
  simp [insertDocument, h1, h2]

theorem insertDocument_ok (doc : Doc) (coll : List Doc)
    (hid : ¬ ∃ d ∈ coll, d.document_id = doc.document_id)
    (hct : ¬ ∃ d ∈ coll, d.attribution.title = doc.attribution.title ∧
      d.attribution.author = doc.attribution.author ∧
      doc.content_text.data.take 100 <+: d.content_text.data) :
    insertDocument doc coll = .ok (coll ++ [doc]) := by
  have h1 : (coll.any fun d => decide (d.document_id = doc.document_id)) = false := by
    rw [← Bool.not_eq_true, any_docId_iff]
    exact hid
  have h2 : coll.any (contentSigMatch doc) = false := by
    rw [← Bool.not_eq_true, any_contentSig_iff]
    exact hct
  simp [insertDocument, h1, h2]

theorem setKey_exists (o : JsObj) (k : String) (v : JsVal) :
    ∃ kv ∈ setKey o k v, kv.1 = k := by
  induction o with
  | nil => exact ⟨(k, v), by simp [setKey], rfl⟩
  | cons hd tl ih =>
    obtain ⟨k2, v2⟩ := hd
    by_cases h : k2 = k
    · exact ⟨(k, v), by simp [setKey, h], rfl⟩
    · obtain ⟨kv, hmem, hkv⟩ := ih
      exact ⟨kv, by simp [setKey, h, hmem], hkv⟩

theorem getKey_setKey_self (o : JsObj) (k : String) (v : JsVal) :
    getKey (setKey o k v) k = some v := by
  induction o with
  | nil => simp [setKey, getKey]
  | cons hd tl ih =>
    obtain ⟨k2, v2⟩ := hd
    by_cases h : k2 = k
    · simp [setKey, getKey, h]
    · simp [setKey, getKey, h, ih]

theorem getKey_setKey_ne (o : JsObj) (k k2 : String) (v : JsVal)
    (h : k ≠ k2) :
    getKey (setKey o k v) k2 = getKey o k2 := by
  induction o with
  | nil => simp [setKey, getKey, h]
  | cons hd tl ih =>
    obtain ⟨k3, v3⟩ := hd
    by_cases h3 : k3 = k
    · simp [setKey, getKey, h3, h]
    · by_cases h4 : k3 = k2
      · simp [setKey, getKey, h3, h4, Ne.symm h]
      · simp [setKey, getKey, h3, h4, ih]

theorem hasConflict_updatePatch (nowIso : String) (updateData : JsObj) :
    hasConflict
      { set := updateDocumentPatch nowIso updateData
        inc := [("version", 1)] } = true := by
  rw [hasConflict, List.any_eq_true]
  obtain ⟨kv, hmem, hkv⟩ :=
    setKey_exists (setKey updateData ("updated_at") (.str nowIso))
      ("version") (.obj [("$inc", .obj [("version", .num 1)])])
  refine ⟨kv, hmem, ?_⟩
  simp [hkv]

theorem foldl_addToSet_nodup (l : List String) :
    ∀ acc : List String, acc.Nodup →
      (l.foldl (fun acc x => if x ∈ acc then acc else acc ++ [x]) acc).Nodup := by
  induction l with
  | nil =>
    intro acc h
    simpa using h
  | cons x l ih =>
    intro acc h
    simp only [List.foldl_cons]
    by_cases hx : x ∈ acc
    · rw [if_pos hx]
      exact ih acc h
    · rw [if_neg hx]
      refine ih _ ?_
      simp [List.nodup_append, h, hx]

theorem foldl_addToSet_mem (l : List String) :
    ∀ (acc : List String) (s : String),
      s ∈ l.foldl (fun acc x => if x ∈ acc then acc else acc ++ [x]) acc ↔
        s ∈ acc ∨ s ∈ l := by
  induction l with
  | nil => simp
  | cons x l ih =>
    intro acc s
    simp only [List.foldl_cons]
    by_cases hx : x ∈ acc
    · rw [if_pos hx, ih]
      constructor
      · rintro (h | h)
        · exact Or.inl h
        · exact Or.inr (List.mem_cons_of_mem x h)
      · rintro (h | h)
        · exact Or.inl h
        · rcases List.mem_cons.mp h with rfl | h2
          · exact Or.inl hx
          · exact Or.inr h2
    · rw [if_neg hx, ih]
      constructor
      · rintro (h | h)
        · rcases List.mem_append.mp h with h2 | h2
          · exact Or.inl h2
          · simp at h2
            exact Or.inr (by simp [h2])
        · exact Or.inr (List.mem_cons_of_mem x h)
      · rintro (h | h)
        · exact Or.inl (List.mem_append.mpr (Or.inl h))
        · rcases List.mem_cons.mp h with rfl | h2
          · exact Or.inl (List.mem_append.mpr (Or.inr (by simp)))
          · exact Or.inr h2

theorem connectStep_inv (s : ConnState) (p : CallPhase) (h : connInv s) :
    connInv (connectStep s p).1 := by
  obtain ⟨h0, h1⟩ := h
  cases p with
  | start =>
    cases hc : s.client with
    | some u => simpa [connectStep, hc] using ⟨h0, h1⟩
    | none =>
      have h2 := h0 hc
      simp [connectStep, hc, connInv, h2]
  | awaitingConnect => simpa [connectStep, connInv] using ⟨h0, h1⟩
  | done r => simpa [connectStep, connInv] using ⟨h0, h1⟩

theorem schedStep_inv (t : TwoCallers) (pick : Bool) (h : connInv t.st) :
    connInv (schedStep t pick).st := by
  cases pick with
  | false => exact connectStep_inv t.st t.a h
  | true => exact connectStep_inv t.st t.b h

theorem runSched_inv (sched : List Bool) :
    ∀ t : TwoCallers, connInv t.st → connInv (runSched sched t).st := by
  induction sched with
  | nil =>
    intro t h
    simpa [runSched] using h
  | cons p sched ih =>
    intro t h
    simp only [runSched, List.foldl_cons]
    exact ih (schedStep t p) (schedStep_inv t p h)

/-- C1: if a record with the same `document_id` already exists in the
store, `insertDocument` fails with the duplicate-id error and returns no
updated collection, so the record is not persisted; consequently a second
`insertDocument` call with the same `document_id` against the collection
produced by a successful first call fails with the duplicate-id error and
creates no second record. -/
theorem insertDocument_duplicate_id_c1 :
    (∀ (doc : Doc) (coll : List Doc),
        (∃ d ∈ coll, d.document_id = doc.document_id) →
        insertDocument doc coll = .error .duplicateId) ∧
    (∀ (doc doc2 : Doc) (coll coll2 : List Doc),
        insertDocument doc coll = .ok coll2 →
        doc2.document_id = doc.document_id →
        insertDocument doc2 coll2 = .error .duplicateId) := by
  constructor
  · exact fun doc coll h => insertDocument_dup_id doc coll h
  · intro doc doc2 coll coll2 hok hid
    cases h1 : (coll.any fun d => decide (d.document_id = doc.document_id)) with
    | true => simp [insertDocument, h1] at hok
    | false =>
      cases h2 : coll.any (contentSigMatch doc) with
      | true => simp [insertDocument, h1, h2] at hok
      | false =>
        simp [insertDocument, h1, h2] at hok
        apply insertDocument_dup_id
        exact ⟨doc, by simp [← hok], hid.symm⟩

/-- Witness for C1: inserting a record into the empty store succeeds, and
inserting the same record again fails with the duplicate-id error. -/
theorem insertDocument_duplicate_id_c1_witness :
    insertDocument sampleDoc [] = Except.ok [sampleDoc] ∧
    insertDocument sampleDoc [sampleDoc] =
      Except.error InsertError.duplicateId :=
  ⟨rfl,
   insertDocument_duplicate_id_c1.2 sampleDoc sampleDoc [] [sampleDoc]
     rfl rfl⟩

/-- C2: the content-duplicate filter of `insertDocument` compares
`attribution.title` and `attribution.author` for equality and matches the
stored `content_text` against the anchored regex built from the first 100
characters of the new text with every pattern-special character escaped —
which is exactly a literal prefix test (first conjunct).  For a record
whose `document_id` is fresh, `insertDocument` fails with the
duplicate-content error when such a stored record exists (second
conjunct), and persists the record exactly when both checks pass (third
conjunct). -/
theorem insertDocument_duplicate_content_c2 :
    (∀ doc d : Doc,
        contentSigMatch doc d =
          (decide (d.attribution.title = doc.attribution.title) &&
           decide (d.attribution.author = doc.attribution.author) &&
           decide (doc.content_text.data.take 100 <+: d.content_text.data))) ∧
    (∀ (doc : Doc) (coll : List Doc),
        (¬ ∃ d ∈ coll, d.document_id = doc.document_id) →
        (∃ d ∈ coll, d.attribution.title = doc.attribution.title ∧
            d.attribution.author = doc.attribution.author ∧
            doc.content_text.data.take 100 <+: d.content_text.data) →
        insertDocument doc coll = .error .duplicateContent) ∧
    (∀ (doc : Doc) (coll : List Doc),
        (¬ ∃ d ∈ coll, d.document_id = doc.document_id) →
        (¬ ∃ d ∈ coll, d.attribution.title = doc.attribution.title ∧
            d.attribution.author = doc.attribution.author ∧
            doc.content_text.data.take 100 <+: d.content_text.data) →
        insertDocument doc coll = .ok (coll ++ [doc])) :=
  ⟨contentSigMatch_eq,
   insertDocument_dup_content,
   insertDocument_ok⟩

/-- Witness for C2: a record with a fresh id but the title, author and
text of an already stored record is rejected with the duplicate-content
error. -/
theorem insertDocument_duplicate_content_c2_witness :
    insertDocument sampleDocOtherId [sampleDoc] =
      Except.error InsertError.duplicateContent :=
  insertDocument_duplicate_content_c2.2.1 sampleDocOtherId [sampleDoc]
    (by decide)
    ⟨sampleDoc, by simp, rfl, rfl, List.take_prefix _ _⟩

/-- C3: the claim says `updateDocument` merges the patch and increments
`version` by 1 atomically.  In the code, `updateData.version` is first
overwritten with the object `{ $inc: { version: 1 } }`, so the
`updateOne` call carries the path `version` both under `$set` and under
`$inc`; MongoDB rejects such an update as a conflict before touching any
document.  Hence every `updateDocument` call fails and no update — in
particular no version increment — ever happens: the code contradicts the
spec on every input. -/
theorem updateDocument_always_errors_c3 :
    ∀ (documentId nowIso : String) (updateData : JsObj)
      (coll : List JsObj),
      updateDocument documentId nowIso updateData coll =
        Except.error MongoUpdateError.conflictingUpdateOperators := by
  intro documentId nowIso updateData coll
  simp [updateDocument, mongoUpdateOne, hasConflict_updatePatch]

/-- C4 (code bug): the repository holds two copies of the builder.  The
auto-cleaning `createDocumentStructure` in the server bundle behaves as
the claim says: `character_count` is the length of the cleaned text and
`token_count = ceil(character_count / 4)` (`ceilDiv4`), with 400 cleaned
characters giving 100 tokens.  But the copy actually served from the
static directory, `src/public/script.js`, has no `cleanText` call at
all: `createDocumentStructureNoClean` computes both counts from the raw
trimmed textarea value.  At the failing input
`Visit https://example.com now` it stores `character_count = 29`, the
raw trimmed length, where the normalized text has length 10 — exactly
the `length of the raw input` the claim rules out.  The spec's `derived
from the normalized text, never the raw input` is the clear intent,
implemented by the newer auto-cleaning copy; the stale served copy
contradicts it. -/
theorem builder_counts_c4 :
    (∀ (f : FormFields) (documentId currentDate : String),
      (createDocumentStructure f documentId
        currentDate).training_metadata.character_count =
        (cleanText (jsTrimStr f.contentText)).length ∧
      (createDocumentStructure f documentId
        currentDate).training_metadata.token_count =
        ceilDiv4 ((createDocumentStructure f documentId
          currentDate).training_metadata.character_count)) ∧
    (createDocumentStructure sampleFields400 ("text_content_3_ccccccccc")
      ("2026-01-03T00:00:00.000Z")).training_metadata.character_count =
      400 ∧
    (createDocumentStructure sampleFields400 ("text_content_3_ccccccccc")
      ("2026-01-03T00:00:00.000Z")).training_metadata.token_count = 100 ∧
    (∀ (f : FormFields) (documentId currentDate : String),
      (createDocumentStructureNoClean f documentId
        currentDate).training_metadata.character_count =
        (jsTrimStr f.contentText).length ∧
      (createDocumentStructureNoClean f documentId
        currentDate).training_metadata.token_count =
        ceilDiv4 ((jsTrimStr f.contentText).length)) ∧
    (createDocumentStructureNoClean urlFields ("text_content_4_ddddddddd")
      ("2026-01-04T00:00:00.000Z")).training_metadata.character_count =
      29 ∧
    (cleanText (jsTrimStr urlFields.contentText)).length = 10 :=
  ⟨fun _ _ _ => ⟨rfl, rfl⟩,
   by decide,
   by decide,
   fun _ _ _ => ⟨rfl, rfl⟩,
   by decide,
   by decide⟩

/-- C5 counterexample: the normalizer is not idempotent on every string.
Removing a URL (step 10) can leave two adjacent spaces, because the
whitespace-collapsing step 5 has already run; a second pass collapses
them, so the two passes disagree on `Visit https://example.com now`. -/
theorem cleanText_not_idempotent_c5_counterexample :
    cleanText (cleanText ("Visit https://example.com now")) ≠
      cleanText ("Visit https://example.com now") := by decide

/-- C5 (amended): the normalizer is idempotent on already-clean text —
for every string `x` that `cleanText` leaves unchanged, a second
application changes nothing — but not on every string (see the
counterexample, where URL removal leaves a double space that only the
next pass collapses). -/
theorem cleanText_idempotent_on_clean_c5 :
    ∀ x : String, cleanText x = x →
      cleanText (cleanText x) = cleanText x := by
  intro x h
  rw [h]
  exact h

/-- Witness for C5 (amended): `Hello world` is already clean and a second
pass keeps it fixed. -/
theorem cleanText_idempotent_on_clean_c5_witness :
    cleanText ("Hello world") = "Hello world" ∧
    cleanText (cleanText ("Hello world")) = cleanText ("Hello world") :=
  ⟨by decide,
   cleanText_idempotent_on_clean_c5 ("Hello world") (by decide)⟩

/-- C6: the normalizer is total and never fails — it is a function into
`String`, defined on every JavaScript value; every non-string input and
the empty string yield the empty string; and it is deterministic (equal
inputs give equal outputs; the model has no locale or other ambient
state). -/
theorem cleanText_total_c6 :
    (∀ v : JsVal, (∀ s : String, v ≠ .str s) → cleanTextVal v = "") ∧
    cleanTextVal (.str "") = "" ∧
    (∀ s : String, cleanTextVal (.str s) = cleanText s) ∧
    (∀ x y : String, x = y → cleanText x = cleanText y) := by
  refine ⟨?_, rfl, fun _ => rfl, fun x y h => by rw [h]⟩
  intro v h
  cases v with
  | str s => exact absurd rfl (h s)
  | num n => rfl
  | boolV b => rfl
  | nullV => rfl
  | undef => rfl
  | obj fields => rfl

/-- Witness for C6: `null` input yields the empty string, and equal
string inputs yield equal outputs. -/
theorem cleanText_total_c6_witness :
    cleanTextVal .nullV = "" ∧ cleanText ("abc") = cleanText ("abc") :=
  ⟨cleanText_total_c6.1 .nullV (fun _ h => JsVal.noConfusion h),
   cleanText_total_c6.2.2.2 ("abc") ("abc") rfl⟩

/-- C7: on the empty collection `getCollectionStats` returns the
well-defined all-zero result with an empty `contentTypes` list; on a
nonempty collection it returns the document count, the sums of
`character_count` and `token_count`, the exact average of `weighting`,
and a duplicate-free list holding exactly the `content_type` values
occurring in the collection. -/
theorem getCollectionStats_spec_c7 :
    getCollectionStats [] =
      { totalDocuments := 0
        totalCharacters := 0
        totalTokens := 0
        averageWeight := 0
        contentTypes := [] } ∧
    ∀ coll : List Doc, coll ≠ [] →
      (getCollectionStats coll).totalDocuments = coll.length ∧
      (getCollectionStats coll).totalCharacters =
        (coll.map fun d => d.training_metadata.character_count).sum ∧
      (getCollectionStats coll).totalTokens =
        (coll.map fun d => d.training_metadata.token_count).sum ∧
      (getCollectionStats coll).averageWeight =
        ((coll.map fun d => (d.training_metadata.weighting : Rat)).sum) /
          (coll.length : Rat) ∧
      (getCollectionStats coll).contentTypes.Nodup ∧
      (∀ s : String, s ∈ (getCollectionStats coll).contentTypes ↔
        ∃ d ∈ coll, d.attribution.content_type = s) := by
  constructor
  · rfl
  · intro coll hne
    cases coll with
    | nil => exact absurd rfl hne
    | cons d rest =>
      refine ⟨rfl, rfl, rfl, rfl, ?_, ?_⟩
      · show (addToSet
          ((d :: rest).map fun d2 => d2.attribution.content_type)).Nodup
        rw [addToSet]
        exact foldl_addToSet_nodup _ [] (by simp)
      · intro s
        show s ∈ addToSet
          ((d :: rest).map fun d2 => d2.attribution.content_type) ↔ _
        rw [addToSet, foldl_addToSet_mem]
        constructor
        · intro hmem
          rcases hmem with h | h
          · exact absurd h (List.not_mem_nil s)
          · exact List.mem_map.mp h
        · intro hmem
          exact Or.inr (List.mem_map.mpr hmem)

/-- Witness for C7: the aggregate over a one-document collection. -/
theorem getCollectionStats_spec_c7_witness :
    (getCollectionStats [sampleDoc]).totalDocuments =
      [sampleDoc].length ∧
    (getCollectionStats [sampleDoc]).contentTypes.Nodup :=
  ⟨(getCollectionStats_spec_c7.2 [sampleDoc] (by simp)).1,
   (getCollectionStats_spec_c7.2 [sampleDoc] (by simp)).2.2.2.2.1⟩

/-- C8 counterexample: `connect()` is not single-flight in the sense of
the claim.  `this.client` is assigned synchronously before the `await`,
so a second caller arriving while the first connection attempt is still
in flight takes the memoized branch and immediately returns `this.db` —
which is still `null` — instead of awaiting the in-flight attempt: after
the schedule `A runs to its await, then B runs`, caller B has completed
with `none` while the connection is still in progress. -/
theorem connect_concurrent_null_c8_counterexample :
    (runSched [false, true] initTC).b = .done none ∧
    (runSched [false, true] initTC).a = .awaitingConnect ∧
    (runSched [false, true] initTC).st.db = none := by decide

/-- C8 (amended): `connect()` memoizes a single connection — a caller
that finds `this.client` set returns the current `this.db` without
touching the state or creating a connection (so after a successful
connect, later calls return the memoized handle), and no interleaving of
two callers ever starts more than one underlying connection; however, a
caller arriving before the in-flight attempt completes does not await it
and gets the still-null handle (see the counterexample). -/
theorem connect_memoized_c8 :
    (∀ s : ConnState, s.client.isSome →
      connectStep s .start = (s, .done s.db)) ∧
    (∀ sched : List Bool,
      (runSched sched initTC).st.clientsCreated ≤ 1) := by
  constructor
  · intro s hs
    cases hc : s.client with
    | none => rw [hc] at hs; simp at hs
    | some u => simp [connectStep, hc]
  · intro sched
    exact (runSched_inv sched initTC (by simp [connInv, initTC])).2

/-- Witness for C8 (amended): a caller that arrives after a successful
connect gets the memoized handle back with no state change. -/
theorem connect_memoized_c8_witness :
    connectStep { client := some (), db := some 1, clientsCreated := 1 }
      .start =
      ({ client := some (), db := some 1, clientsCreated := 1 },
        .done (some 1)) :=
  connect_memoized_c8.1
    { client := some (), db := some 1, clientsCreated := 1 } rfl

/-- C9: `deleteDocument` is idempotent with respect to absence: when no
stored record has the requested `document_id` it completes without error
leaving the collection unchanged and reporting `deletedCount = 0`, and
when such a record exists it removes exactly one record
(`deletedCount = 1`, length drops by one). -/
theorem deleteDocument_idempotent_c9 :
    (∀ (documentId : String) (coll : List Doc),
        (∀ d ∈ coll, d.document_id ≠ documentId) →
        deleteDocument documentId coll = (coll, 0)) ∧
    (∀ (documentId : String) (coll : List Doc),
        (∃ d ∈ coll, d.document_id = documentId) →
        (deleteDocument documentId coll).2 = 1 ∧
        (deleteDocument documentId coll).1.length + 1 = coll.length) := by
  constructor
  · intro documentId coll
    induction coll with
    | nil => intro h; rfl
    | cons d rest ih =>
      intro h
      have hd : d.document_id ≠ documentId := h d (List.mem_cons_self d rest)
      have hrest := ih (fun d2 hd2 => h d2 (List.mem_cons_of_mem d hd2))
      simp [deleteDocument, hd, hrest]
  · intro documentId coll
    induction coll with
    | nil => intro h; simp at h
    | cons d rest ih =>
      intro h
      by_cases hd : d.document_id = documentId
      · simp [deleteDocument, hd]
      · obtain ⟨d2, hmem, hid2⟩ := h
        have hmem2 : d2 ∈ rest := by
          rcases List.mem_cons.mp hmem with rfl | h2
          · exact absurd hid2 hd
          · exact h2
        obtain ⟨ha, hb⟩ := ih ⟨d2, hmem2, hid2⟩
        refine ⟨by simp [deleteDocument, hd, ha], ?_⟩
        simp [deleteDocument, hd]
        omega

/-- Witness for C9: deleting a nonexistent id from a one-document store
succeeds, changes nothing, and reports `deletedCount = 0`. -/
theorem deleteDocument_idempotent_c9_witness :
    deleteDocument ("missing_id") [sampleDoc] = ([sampleDoc], 0) :=
  deleteDocument_idempotent_c9.1 ("missing_id") [sampleDoc] (by decide)

/-- C10: `updateDocument` mutates the caller's patch object before
calling the store: `updated_at` is set to the current ISO timestamp,
`version` is overwritten with the object `{ $inc: { version: 1 } }`, and
it is this mutated patch that becomes the `$set` document of the
`updateOne` call, alongside a separate `$inc` of `version` by 1. -/
theorem updateDocument_mutates_patch_c10 :
    ∀ (nowIso : String) (updateData : JsObj),
      getKey (updateDocumentPatch nowIso updateData) ("updated_at") =
        some (.str nowIso) ∧
      getKey (updateDocumentPatch nowIso updateData) ("version") =
        some (.obj [("$inc", .obj [("version", .num 1)])]) ∧
      ∀ (documentId : String) (coll : List JsObj),
        updateDocument documentId nowIso updateData coll =
          mongoUpdateOne documentId
            { set := updateDocumentPatch nowIso updateData
              inc := [("version", 1)] } coll := by
  intro nowIso updateData
  refine ⟨?_, ?_, fun documentId coll => rfl⟩
  · rw [updateDocumentPatch, getKey_setKey_ne _ _ _ _ (by decide)]
    exact getKey_setKey_self _ _ _
  · exact getKey_setKey_self _ _ _

end TextCorpus
